import Mathlib

/-!
Verification of the ledgerly bill/voice extraction-and-validation pipeline
(`backend/app.py`).

The Python source works over strings with the `re` module and over duck-typed
dictionaries.  We embed:
  * the regular-expression constructs actually used by the source as a small
    backtracking matcher (`mrun`) over `List Char`, reproducing Python's
    leftmost / greedy / first-alternative backtracking order, together with
    `re.search` (`reSearch`) and `re.findall` (`reFindall`) scanning;
  * Python `float()` on the digit/comma/dot strings the patterns can capture
    (`pyFloat`), with arithmetic over `ℚ` (numeric record fields are modelled
    exactly; the source's IEEE doubles are idealized as rationals);
  * the structured records as Lean structures with `Option` fields: a field
    holding Python `None` and an absent dictionary key behave identically in
    every read the source performs (`dict.get`), so both are modelled `none`.
-/

/- Batteries marks the `ℚ` field operations `irreducible`, which blocks
`decide` on the concrete pipeline runs below; restore unfolding. -/
set_option allowUnsafeReducibility true
attribute [local semireducible] Rat.add Rat.sub Rat.mul Rat.div Rat.inv Rat.ofScientific

/-! ### Character classes (Python `re` semantics, ASCII inputs) -/

/-- Python `\s`: space, tab, newline, carriage return, vertical tab, form feed. -/
def isSpaceB (c : Char) : Bool :=
  c == ' ' || c == '\t' || c == '\n' || c == '\r' || c == '\x0b' || c == '\x0c'

/-- Python `\w` (ASCII): letter, digit or underscore; used for `\b`. -/
def isWordChar (c : Char) : Bool :=
  c.isAlpha || c.isDigit || c == '_'

/-- Class `[A-Z]`. -/
def isUpperAZ (c : Char) : Bool := 'A' ≤ c && c ≤ 'Z'

/-- Class `[a-z]`. -/
def isLowerAZ (c : Char) : Bool := 'a' ≤ c && c ≤ 'z'

/-! ### Regular expression AST

Only the constructs appearing in the source's patterns: single-character
classes (literals included), concatenation, alternation (`|`), greedy `*`,
greedy `?`, one capturing group per pattern, and the word boundary `\b`.
Counted repetitions `{m}`, `{m,}`, `{m,n}` and `+` are desugared below. -/

inductive RE where
  | eps
  | cls (p : Char → Bool)
  | seq (a b : RE)
  | alt (a b : RE)
  | opt (a : RE)
  | star (a : RE)
  | group (a : RE)
  | wordB

/-- One backtracking outcome: last consumed character (for `\b`), remaining
input, and the capture of the (single) group if it participated. -/
abbrev ROut := Option Char × List Char × Option (List Char)

/-- Boundary `\b` holds where exactly one neighbour is a word character (string edges
count as non-word). -/
def atBoundary (prev : Option Char) (s : List Char) : Bool :=
  let l := match prev with | some c => isWordChar c | none => false
  let r := match s with | c :: _ => isWordChar c | [] => false
  l != r

/-- Greedy-star driver: at each step try one more (consuming) iteration of the
body first, then stop.  `fuel` bounds the iteration count; every body in the
source's patterns consumes at least one character, so `length + 1` fuel is
exact. -/
def starRun (step : Option Char → List Char → List ROut) :
    Nat → Option Char → List Char → List ROut
  | 0, prev, s => [(prev, s, none)]
  | fuel + 1, prev, s =>
      (((step prev s).filter (fun r => r.2.1.length < s.length)).flatMap
        (fun r => (starRun step fuel r.1 r.2.1).map
          (fun r2 => (r2.1, r2.2.1, r.2.2 <|> r2.2.2)))) ++ [(prev, s, none)]

/-- Backtracking matcher anchored at the current position.  The returned list
enumerates the outcomes in Python's backtracking priority order (greedy
quantifiers longest first, alternatives left first); the head is the match
Python's engine reports. -/
def mrun : RE → Option Char → List Char → List ROut
  | .eps, prev, s => [(prev, s, none)]
  | .cls p, _, s =>
      match s with
      | [] => []
      | c :: rest => if p c then [(some c, rest, none)] else []
  | .seq a b, prev, s =>
      (mrun a prev s).flatMap (fun r =>
        (mrun b r.1 r.2.1).map (fun r2 => (r2.1, r2.2.1, r.2.2 <|> r2.2.2)))
  | .alt a b, prev, s => mrun a prev s ++ mrun b prev s
  | .opt a, prev, s => mrun a prev s ++ [(prev, s, none)]
  | .star a, prev, s => starRun (mrun a) (s.length + 1) prev s
  | .group a, prev, s =>
      (mrun a prev s).map (fun r => (r.1, r.2.1, some (s.take (s.length - r.2.1.length))))
  | .wordB, prev, s => if atBoundary prev s then [(prev, s, none)] else []

/-- Scanning for `re.search`: try the pattern at each position left to right and
return the first match's group-1 text (`[]` if the group did not participate,
mirroring `group(1)` of a groupless match never used by the source). -/
def searchAux (r : RE) : Option Char → List Char → Option (List Char)
  | prev, [] =>
      match mrun r prev [] with
      | out :: _ => some (out.2.2.getD [])
      | [] => none
  | prev, c :: rest =>
      match mrun r prev (c :: rest) with
      | out :: _ => some (out.2.2.getD [])
      | [] => searchAux r (some c) rest

def reSearch (r : RE) (s : List Char) : Option (List Char) :=
  searchAux r none s

/-- Scanning for `re.findall`: collect group-1 of every non-overlapping match,
resuming after each match (advancing one character past positions without a
match, or past an empty match). -/
def findallAux (r : RE) : Nat → Option Char → List Char → List (List Char)
  | 0, _, _ => []
  | fuel + 1, prev, s =>
      match mrun r prev s with
      | out :: _ =>
          if out.2.1.length < s.length then
            out.2.2.getD [] :: findallAux r fuel out.1 out.2.1
          else
            match s with
            | [] => [out.2.2.getD []]
            | c :: rest => out.2.2.getD [] :: findallAux r fuel (some c) rest
      | [] =>
          match s with
          | [] => []
          | c :: rest => findallAux r fuel (some c) rest

def reFindall (r : RE) (s : List Char) : List (List Char) :=
  findallAux r (s.length + 1) none s

/-! ### Pattern construction helpers -/

def reSeqL (l : List RE) : RE := l.foldr RE.seq RE.eps

def altL : List RE → RE
  | [] => RE.eps
  | [r] => r
  | r :: rest => RE.alt r (altL rest)

/-- Case-sensitive literal. -/
def lit (s : String) : RE :=
  reSeqL (s.toList.map (fun c => RE.cls (fun x => x == c)))

/-- Literal under `re.IGNORECASE`. -/
def litCI (s : String) : RE :=
  reSeqL (s.toList.map (fun c => RE.cls (fun x => x.toLower == c.toLower)))

/-- Exact repetition, regex brace n. -/
def rep : Nat → RE → RE
  | 0, _ => RE.eps
  | n + 1, a => RE.seq a (rep n a)

/-- Bounded repetition (greedy, longest first), used to desugar the regex
brace m,n quantifier. -/
def atMost : Nat → RE → RE
  | 0, _ => RE.eps
  | n + 1, a => RE.opt (RE.seq a (atMost n a))

/-- Greedy plus. -/
def rplus (a : RE) : RE := RE.seq a (RE.star a)

def dig : RE := RE.cls Char.isDigit
def digComma : RE := RE.cls (fun c => c.isDigit || c == ',')
def spStar : RE := RE.star (RE.cls isSpaceB)
def spPlus : RE := rplus (RE.cls isSpaceB)
def colonSpStar : RE := RE.star (RE.cls (fun c => c == ':' || isSpaceB c))

/-- Pattern `(?:₹|Rs\.?|INR)` (ignore-case). -/
def currency3 : RE :=
  altL [lit "₹", RE.seq (litCI "Rs") (RE.opt (lit ".")), litCI "INR"]

/-- Pattern `(?:₹|Rs\.?)` (ignore-case). -/
def currency2 : RE :=
  altL [lit "₹", RE.seq (litCI "Rs") (RE.opt (lit "."))]

/-- Pattern `([\d,]+\.?\d*)` — the numeric capture shared by many patterns. -/
def numCap : RE :=
  RE.group (reSeqL [rplus digComma, RE.opt (lit "."), RE.star dig])

/-! ### Python `float()` on captured numeric strings

The source always parses `match.replace(",", "")`.  The strings the numeric
patterns can produce consist of digits, commas and at most one dot, so after
comma removal `float()` succeeds exactly on "digits", "digits.", ".digits" or
"digits.digits" and raises `ValueError` otherwise (e.g. on "" or "."). -/

def digitsVal (l : List Char) : ℕ :=
  l.foldl (fun n c => 10 * n + (c.toNat - 48)) 0

def pyFloat (l : List Char) : Option ℚ :=
  if l.isEmpty then none
  else if l.all Char.isDigit then some ((digitsVal l : ℕ) : ℚ)
  else
    match l.splitOn '.' with
    | [a, b] =>
        if (a ++ b).isEmpty then none
        else if (a ++ b).all Char.isDigit then
          some ((digitsVal a : ℚ) + (digitsVal b : ℚ) / ((10 : ℚ) ^ b.length))
        else none
    | _ => none

/-- Python `float(text.replace(",", ""))`, `None` on `ValueError`. -/
def parseAmount (l : List Char) : Option ℚ :=
  pyFloat (l.filter (fun c => c ≠ ','))

/-! ### Data model

`BillExtraction` records flow between pipeline stages as Python dicts.  The
validator additionally probes the keys `gst_amount` and `gst_percentage`, and
the item-backfill step probes `detected_amount`; these are modelled as fields
(never populated by the extractors of this file, exactly as in the source
where no producer writes them). -/

structure LineItem where
  description : String
  hsn_code : Option String
  quantity : ℚ
  rate : ℚ
  amount : ℚ
deriving DecidableEq, Repr

structure Bill where
  vendor_name : Option String := none
  vendor_gstin : Option String := none
  bill_number : Option String := none
  bill_date : Option String := none
  items : Option (List LineItem) := none
  subtotal : Option ℚ := none
  cgst_rate : Option ℚ := none
  cgst_amount : Option ℚ := none
  sgst_rate : Option ℚ := none
  sgst_amount : Option ℚ := none
  igst_rate : Option ℚ := none
  igst_amount : Option ℚ := none
  total_amount : Option ℚ := none
  gst_amount : Option ℚ := none
  gst_percentage : Option ℚ := none
  detected_amount : Option ℚ := none
  confidence : Option ℚ := none
deriving DecidableEq, Repr

def emptyBill : Bill := {}

/-! ### STEP 5: rule-based validation (`validate_bill_data`) -/

/-- Rule 1 guard: `total is not None and total < 10`. -/
def lowTotal : Option ℚ → Bool
  | some t => decide (t < 10)
  | none => false

/-- Rule 2 guard: `gst is not None and total is not None and gst > total`. -/
def gstExceeds : Option ℚ → Option ℚ → Bool
  | some g, some t => decide (t < g)
  | _, _ => false

/-- Rule 3 guard: `gst_pct is not None and (gst_pct < 0 or gst_pct > 28)`. -/
def pctOutOfRange : Option ℚ → Bool
  | some p => decide (p < 0) || decide (28 < p)
  | none => false

/-- Rule 4 guard: all three present and `abs(subtotal + gst - total) > total * 0.1`.
Note the source evaluates it on the `gst` local read *before* rule 2 nulls the
`gst_amount` key. -/
def subtotalMismatch : Option ℚ → Option ℚ → Option ℚ → Bool
  | some st, some g, some t => decide (t * (1 / 10) < |st + g - t|)
  | _, _, _ => false

/-- Function `validate_bill_data` on a non-`None` record (the dict-mutating body). -/
def validateBill (b : Bill) : Bill :=
  let total := b.total_amount
  let gst := b.gst_amount
  let st := b.subtotal
  let c0 := b.confidence.getD (1 / 2 : ℚ)
  let c1 := if lowTotal total then c0 - 1 / 5 else c0
  let gstEx := gstExceeds gst total
  let c2 := if gstEx then c1 - 3 / 20 else c1
  let pctBad := pctOutOfRange b.gst_percentage
  let c3 := if pctBad then c2 - 1 / 10 else c2
  let c4 := if subtotalMismatch st gst total then c3 - 3 / 20 else c3
  let c5 := if (b.items.getD []).isEmpty then c4 - 1 / 10 else c4
  { b with
    gst_amount := if gstEx then none else b.gst_amount
    gst_percentage := if pctBad then none else b.gst_percentage
    confidence := some (max 0 (min 1 c5)) }

/-- Function `validate_bill_data`: `None` passes through as `None`. -/
def validate_bill_data : Option Bill → Option Bill
  | none => none
  | some b => some (validateBill b)

/-! ### Fallback text-pattern extraction (`_fallback_extract_from_ocr`) -/

/-- Pattern `(?:Grand\s*Total|Net\s*Amount|Total\s*Amount|Amount\s*Payable)`. -/
def totalLabels : RE :=
  altL [RE.seq (litCI "Grand") (RE.seq spStar (litCI "Total")),
        RE.seq (litCI "Net") (RE.seq spStar (litCI "Amount")),
        RE.seq (litCI "Total") (RE.seq spStar (litCI "Amount")),
        RE.seq (litCI "Amount") (RE.seq spStar (litCI "Payable"))]

/-- The eight amount patterns, in the source's priority order. -/
def amountPatterns : List RE :=
  [ reSeqL [totalLabels, colonSpStar, RE.opt currency3, spStar, numCap],
    reSeqL [totalLabels, colonSpStar, numCap],
    reSeqL [currency3, spStar, numCap, spStar, RE.opt (RE.alt (litCI "only") (lit "/-"))],
    reSeqL [litCI "Total", colonSpStar, RE.opt currency3, spStar, numCap],
    reSeqL [litCI "Amount", colonSpStar, RE.opt currency3, spStar, numCap],
    reSeqL [currency3, spStar, numCap],
    reSeqL [RE.wordB, RE.group (reSeqL [rplus digComma, lit ".", rep 2 dig]), RE.wordB],
    reSeqL [RE.wordB, RE.group (reSeqL [rep 3 dig, RE.star dig,
      RE.star (RE.seq (lit ",") (rep 3 dig)), RE.opt (RE.seq (lit ".") (rep 2 dig))]), RE.wordB] ]

/-- The `all_amounts` collection loop: every `findall` match of every pattern,
parsed, keeping the strictly positive parseable ones. -/
def collectAmounts (ocr : List Char) : List ℚ :=
  ((amountPatterns.flatMap (fun p => reFindall p ocr)).filterMap parseAmount).filter
    (fun a => decide (0 < a))

/-- GSTIN pattern body `\d{2}[A-Z]{5}\d{4}[A-Z]\d[A-Z\d]{2}` as a class chain. -/
def gstinPreds : List (Char → Bool) :=
  List.replicate 2 Char.isDigit ++ List.replicate 5 isUpperAZ ++
  List.replicate 4 Char.isDigit ++ [isUpperAZ] ++ [Char.isDigit] ++
  List.replicate 2 (fun c => isUpperAZ c || c.isDigit)

def clsChain (ps : List (Char → Bool)) : RE := reSeqL (ps.map RE.cls)

/-- Pattern `\b(\d{2}[A-Z]{5}\d{4}[A-Z]\d[A-Z\d]{2})\b`. -/
def gstinRE : RE := reSeqL [RE.wordB, RE.group (clsChain gstinPreds), RE.wordB]

/-- The date separator classes: dash, slash, dot; and dash, slash. -/
def dateSep3 : RE := RE.cls (fun c => c == '-' || c == '/' || c == '.')
def dateSep2 : RE := RE.cls (fun c => c == '-' || c == '/')

def monthNames : RE :=
  altL (["Jan", "Feb", "Mar", "Apr", "May", "Jun", "Jul", "Aug", "Sep", "Oct",
         "Nov", "Dec"].map litCI)

/-- The four date patterns, in order. -/
def datePatterns : List RE :=
  [ reSeqL [altL [litCI "Date", RE.seq (litCI "Dt") (RE.opt (lit ".")), litCI "Dated"],
      colonSpStar,
      RE.group (reSeqL [dig, RE.opt dig, dateSep3, dig, RE.opt dig, dateSep3,
        dig, dig, atMost 2 dig])],
    RE.group (reSeqL [dig, RE.opt dig, dateSep2, dig, RE.opt dig, dateSep2,
      dig, dig, atMost 2 dig]),
    RE.group (reSeqL [rep 4 dig, dateSep2, dig, RE.opt dig, dateSep2, dig, RE.opt dig]),
    RE.group (reSeqL [dig, RE.opt dig, spPlus, monthNames,
      RE.star (RE.cls (fun c => isLowerAZ c || isUpperAZ c)), spPlus,
      dig, dig, atMost 2 dig]) ]

/-- The bill-number character class (A-Z, 0-9, dash, slash) under
`re.IGNORECASE` (so lowercase letters match too). -/
def billNumChar : RE :=
  RE.cls (fun c => isUpperAZ c || isLowerAZ c || c.isDigit || c == '-' || c == '/')

/-- The two bill-number patterns, in order. -/
def billNumPatterns : List RE :=
  [ reSeqL [altL [litCI "Invoice", litCI "Bill", litCI "Receipt"], spStar,
      altL [RE.seq (litCI "No") (RE.opt (lit ".")), litCI "Number", lit "#"],
      colonSpStar, RE.group (rplus billNumChar)],
    reSeqL [altL [RE.seq (litCI "No") (RE.opt (lit ".")), lit "#"],
      colonSpStar, RE.group (reSeqL [billNumChar, billNumChar, billNumChar,
        RE.star billNumChar])] ]

/-- Pattern `LABEL[:\s@%\d]*(?:₹|Rs\.?)?\s*([\d,]+\.?\d*)` for CGST/SGST/IGST. -/
def gstComponentRE (label : String) : RE :=
  reSeqL [litCI label,
    RE.star (RE.cls (fun c => c == ':' || isSpaceB c || c == '@' || c == '%' || c.isDigit)),
    RE.opt currency2, spStar, numCap]

/-- Pattern `(?:Sub\s*Total|Taxable\s*(?:Value|Amount))[:\s]*(?:₹|Rs\.?)?\s*([\d,]+\.?\d*)`. -/
def subtotalRE : RE :=
  reSeqL [altL [RE.seq (litCI "Sub") (RE.seq spStar (litCI "Total")),
                RE.seq (litCI "Taxable") (RE.seq spStar (RE.alt (litCI "Value") (litCI "Amount")))],
    colonSpStar, RE.opt currency2, spStar, numCap]

/-- First `re.search` hit over a pattern list (for dates and bill numbers). -/
def firstSearch (pats : List RE) (s : List Char) : Option (List Char) :=
  match pats with
  | [] => none
  | p :: rest =>
      match reSearch p s with
      | some g => some g
      | none => firstSearch rest s

/-- A found `match` then `try float` with `pass` on `ValueError` (leaves `None`). -/
def searchAmount (r : RE) (s : List Char) : Option ℚ :=
  (reSearch r s).bind parseAmount

/-- Python `str.strip()`. -/
def pyStripL (l : List Char) : List Char :=
  (l.dropWhile isSpaceB).reverse.dropWhile isSpaceB |>.reverse

def skipLabels : List (List Char) :=
  ["invoice", "bill", "date", "gst", "total", "amount", "tax", "receipt",
   "cash", "credit", "payment"].map String.toList

/-- Substring containment (`label in line_lower`). -/
def containsSub (needle hay : List Char) : Bool :=
  (List.range (hay.length + 1)).any (fun i => (hay.drop i).take needle.length == needle)

/-- The anchored full-line check of the vendor scan: every character is a
digit, whitespace, dash, slash, dot, comma, colon or the rupee sign. -/
def pureNumberLine (l : List Char) : Bool :=
  !l.isEmpty && l.all (fun c => c.isDigit || isSpaceB c || c == '-' || c == '/' ||
    c == '.' || c == ',' || c == ':' || c == '₹')

/-- The vendor-name scan over the first 10 lines. -/
def vendorScan : List (List Char) → Option (List Char)
  | [] => none
  | raw :: rest =>
      let line := pyStripL raw
      if line.isEmpty || line.length < 3 then vendorScan rest
      else
        let lower := line.map Char.toLower
        if skipLabels.any (fun lab => containsSub lab lower) then vendorScan rest
        else if pureNumberLine line then vendorScan rest
        else some (line.take 50)

/-- Python `str.splitlines()` restricted to `\n` separators (the OCR texts the
claims quantify over use `\n`; `\r` inside a line is stripped by the
subsequent `strip()` exactly as in the source). -/
def splitLines (l : List Char) : List (List Char) :=
  l.splitOn '\n'

/-- Truthiness of an optional number (`0` and `None` are falsy). -/
def truthyQ : Option ℚ → Bool
  | some x => decide (x ≠ 0)
  | none => false

/-- Function `_fallback_extract_from_ocr` over the OCR text. -/
def fallback_extract_from_ocr (ocrStr : String) : Bill :=
  let ocr := ocrStr.toList
  let all_amounts := collectAmounts ocr
  let detected_amount : Option ℚ := all_amounts.max?
  let vendor_gstin := (reSearch gstinRE (ocr.map Char.toUpper)).map String.mk
  let bill_date := (firstSearch datePatterns ocr).map String.mk
  let bill_number := (firstSearch billNumPatterns ocr).map String.mk
  let cgst_amount := searchAmount (gstComponentRE "CGST") ocr
  let sgst_amount := searchAmount (gstComponentRE "SGST") ocr
  let igst_amount := searchAmount (gstComponentRE "IGST") ocr
  let subtotal := searchAmount subtotalRE ocr
  let vendor_name := (vendorScan ((splitLines ocr).take 10)).map String.mk
  let conf0 : ℚ := 3 / 10
  let conf1 := if truthyQ detected_amount &&
      (match detected_amount with | some a => decide (10 < a) | none => false) then
      conf0 + 1 / 4 else conf0
  let conf2 := if vendor_gstin.isSome then conf1 + 3 / 20 else conf1
  let conf3 := if bill_date.isSome then conf2 + 1 / 10 else conf2
  let conf4 := if vendor_name.isSome then conf3 + 1 / 10 else conf3
  let conf5 := if truthyQ cgst_amount || truthyQ sgst_amount || truthyQ igst_amount then
      conf4 + 1 / 10 else conf4
  { vendor_name := vendor_name
    vendor_gstin := vendor_gstin
    bill_number := bill_number
    bill_date := bill_date
    items := some []
    subtotal := subtotal
    cgst_amount := cgst_amount
    sgst_amount := sgst_amount
    igst_amount := igst_amount
    total_amount := detected_amount
    confidence := some (min 1 conf5) }

/-! ### Voice fallback extraction (`extract_voice_data_simple`) -/

structure VoiceItem where
  name : String
  quantity : ℚ
  unit : String
  price : Option ℚ
deriving DecidableEq, Repr

structure VoiceData where
  entry_type : String
  amount : ℚ
  note : String
  items : List VoiceItem
deriving DecidableEq, Repr

/-- Pattern `(\d+(?:,\d+)*(?:\.\d+)?)` — the voice numeric capture. -/
def voiceNumCap : RE :=
  RE.group (reSeqL [rplus dig, RE.star (RE.seq (lit ",") (rplus dig)),
    RE.opt (RE.seq (lit ".") (rplus dig))])

/-- The three currency patterns of the voice fallback, in order (matched on
the lowercased transcript with case-sensitive lowercase literals). -/
def voiceCurrencyPatterns : List RE :=
  [ reSeqL [voiceNumCap, spStar,
      altL [lit "rupaye", lit "rupees", lit "rupiya",
            RE.seq (lit "rs") (RE.opt (lit ".")), lit "₹"]],
    reSeqL [altL [lit "rupaye", lit "rupees", lit "rupiya",
            RE.seq (lit "rs") (RE.opt (lit ".")), lit "₹"], spStar, voiceNumCap],
    reSeqL [voiceNumCap, spStar,
      altL [lit "ka", lit "ke", lit "ki", lit "mein", lit "me", lit "में"]] ]

/-- The currency-pattern loop: first pattern whose match parses; a
`ValueError` falls through to the next pattern (`continue`). -/
def firstVoiceAmount : List RE → List Char → Option ℚ
  | [], _ => none
  | p :: rest, s =>
      match reSearch p s with
      | some g =>
          match parseAmount g with
          | some a => some a
          | none => firstVoiceAmount rest s
      | none => firstVoiceAmount rest s

def incomeKeywords : List (List Char) :=
  ["sold", "received", "income", "becha", "bech", "diya", "milaa", "mila",
   "aaya", "aayi", "payment received"].map String.toList

def expenseKeywords : List (List Char) :=
  ["bought", "purchased", "kharida", "liya", "spent", "paid", "expense"].map String.toList

/-- Function `extract_voice_data_simple`.  The keyword logic nets out to: `income` iff
any income keyword occurs in the lowercased transcript, else `expense` (the
source's expense loop after an income hit only `break`s). -/
def extract_voice_data_simple (transcript : String) : VoiceData :=
  let text := transcript.toList
  let lower := text.map Char.toLower
  let amount0 : ℚ := (firstVoiceAmount voiceCurrencyPatterns lower).getD 0
  let amount :=
    if amount0 = 0 then
      match ((reFindall voiceNumCap text).filterMap parseAmount).max? with
      | some m => m
      | none => amount0
    else amount0
  let entry_type :=
    if incomeKeywords.any (fun k => containsSub k lower) then "income"
    else "expense"
  { entry_type := entry_type, amount := amount, note := transcript, items := [] }

/-! ### Pipeline orchestration

The two external AI calls (extraction and verification) and the presence of
credentials are opaque inputs of the pipeline; they are modelled as an
environment record.  `extractResult = none` covers every failure mode of the
first call (transport error, unparseable response, non-mapping JSON), all of
which make `run_gemini_structured` return `None`; `verifyResult = none`
covers a failed or non-mapping verification pass, which keeps the first-pass
extraction. -/

structure BillEnv where
  hasKey : Bool
  extractResult : Option Bill
  verifyResult : Option Bill

/-- Spec §4.7 state-machine stages, emitted by the embedding as the
corresponding source lines complete. -/
inductive Stage where
  | RECEIVED | NORMALIZED | OCR_DONE | AI_EXTRACTED | FALLBACK_EXTRACTED
  | VERIFIED | VALIDATED | ITEM_BACKFILLED | PERSISTED
deriving DecidableEq, Repr

/-- Function `run_gemini_structured`, returning the record (or `None`) together with
the stages completed inside it.  Note the no-credentials path returns the
fallback extraction *without* applying `validate_bill_data`. -/
def run_gemini_structured (env : BillEnv) (ocr : String) : Option Bill × List Stage :=
  if env.hasKey = false then
    (some (fallback_extract_from_ocr ocr), [Stage.FALLBACK_EXTRACTED])
  else
    match env.extractResult with
    | none => (none, [])
    | some extracted =>
        match env.verifyResult with
        | some verified =>
            (some (validateBill verified),
             [Stage.AI_EXTRACTED, Stage.VERIFIED, Stage.VALIDATED])
        | none =>
            (some (validateBill extracted), [Stage.AI_EXTRACTED, Stage.VALIDATED])

/-- Python `a or b` on optional numbers (`None` and `0` are falsy). -/
def pyOrQ (a b : Option ℚ) : Option ℚ := if truthyQ a then a else b

/-- The item-backfill heuristic of `api_upload_bill`: if `items` is empty but
`total_amount or detected_amount` is truthy, synthesize the single inferred
line item. -/
def backfillItems (b : Bill) : Bill :=
  if (b.items.getD []).isEmpty then
    let total_val := pyOrQ b.total_amount b.detected_amount
    match total_val with
    | some t =>
        if t ≠ 0 then
          { b with items := some [⟨"Inferred item", none, 1, t, t⟩] }
        else b
    | none => b
  else b

/-- The low-value test of `api_upload_bill`: `not structured or
(structured.get("total_amount") in (None, 0) and not structured.get("items"))`. -/
def needFallback : Option Bill → Bool
  | none => true
  | some s =>
      (s.total_amount == none || s.total_amount == some 0) && (s.items.getD []).isEmpty

/-- Sum `gst_amount = (cgst_amount or 0) + (sgst_amount or 0) + (igst_amount or 0)`. -/
def pyOrZero : Option ℚ → ℚ
  | some x => if x = 0 then 0 else x
  | none => 0

def gstSum (b : Bill) : ℚ :=
  pyOrZero b.cgst_amount + pyOrZero b.sgst_amount + pyOrZero b.igst_amount

/-- The separate five-pattern detected-amount scan of `api_upload_bill`
(first pattern whose `search` parses wins; `ValueError` moves on). -/
def detectedAmountPatterns : List RE :=
  [ reSeqL [currency3, spStar, numCap],
    reSeqL [litCI "Total", colonSpStar, numCap],
    reSeqL [litCI "Amount", colonSpStar, numCap],
    reSeqL [litCI "Grand", spStar, litCI "Total", colonSpStar, numCap],
    reSeqL [RE.wordB, RE.group (reSeqL [rplus digComma, lit ".", rep 2 dig]), RE.wordB] ]

def detectedAmountScan : List RE → List Char → Option ℚ
  | [], _ => none
  | p :: rest, s =>
      match reSearch p s with
      | some g =>
          match parseAmount g with
          | some a => some a
          | none => detectedAmountScan rest s
      | none => detectedAmountScan rest s

/-- Everything `api_upload_bill` does with the structured record after OCR
succeeds: extraction (with fallback), item backfill, the persisted bill row's
derived fields, and the conditional ledger entry. -/
structure UploadResult where
  structured : Bill
  billGst : ℚ
  responseGst : ℚ
  detectedAmount : Option ℚ
  ledgerCreated : Bool
  trace : List Stage
deriving Repr

def uploadPipeline (env : BillEnv) (ocr : String) : UploadResult :=
  let r0 := run_gemini_structured env ocr
  let nf := needFallback r0.1
  let structured1 := if nf then fallback_extract_from_ocr ocr else r0.1.getD emptyBill
  let trace1 := if nf then r0.2 ++ [Stage.FALLBACK_EXTRACTED] else r0.2
  let structured2 := backfillItems structured1
  let gst := gstSum structured2
  { structured := structured2
    billGst := gst
    responseGst := gst
    detectedAmount := detectedAmountScan detectedAmountPatterns ocr.toList
    ledgerCreated := truthyQ structured2.total_amount &&
      (match structured2.total_amount with | some t => decide (0 < t) | none => false)
    trace := trace1 ++ [Stage.ITEM_BACKFILLED, Stage.PERSISTED] }

/-! ### Voice endpoint (`api_process_voice`) -/

structure VoiceEnv where
  hasKey : Bool
  aiResult : Option VoiceData

inductive VoiceErr where
  | transcript_required
  | amount_not_found
deriving DecidableEq, Repr

structure EntryRow where
  entry_type : String
  amount : ℚ
  note : String
  source : String
deriving DecidableEq, Repr

/-- The direct numeric rescue scan on the transcript. -/
def directScanAmount (t : List Char) : Option ℚ :=
  (reSearch numCap t).bind parseAmount

/-- Item rendering for the note; Python formats the price with `:.2f`, which
we render via `ℚ`'s `toString` (no claim depends on the text). -/
def fmtVoiceItem (it : VoiceItem) : String :=
  match it.price with
  | some p =>
      if p ≠ 0 then
        toString it.quantity ++ " " ++ it.unit ++ " " ++ it.name ++ " @ ₹" ++ toString p
      else toString it.quantity ++ " " ++ it.unit ++ " " ++ it.name
  | none => toString it.quantity ++ " " ++ it.unit ++ " " ++ it.name

def joinComma : List String → String
  | [] => ""
  | [x] => x
  | x :: rest => x ++ ", " ++ joinComma rest

/-- The `extracted` variable of `api_process_voice`: the AI result when
credentials are configured and the call produced a mapping, otherwise the
transcript fallback (`if not extracted: extracted = extract_voice_data_simple(...)`). -/
def voiceExtracted (env : VoiceEnv) (t : String) : VoiceData :=
  match (if env.hasKey then env.aiResult else none) with
  | some e => e
  | none => extract_voice_data_simple t

/-- The `amount` variable after the direct-scan rescue: if the extracted
amount is falsy or non-positive, a parse of the transcript's first numeric
match replaces it (even a non-positive parse), else it stands. -/
def voiceAmount (env : VoiceEnv) (t : String) : ℚ :=
  let amount0 := (voiceExtracted env t).amount
  if amount0 ≤ 0 then
    match directScanAmount t.toList with
    | some a => a
    | none => amount0
  else amount0

/-- Endpoint `api_process_voice` after the login check: the returned pair is the
entries store after the request and the request's outcome. -/
def api_process_voice (env : VoiceEnv) (rawTranscript : String)
    (entries : List EntryRow) : List EntryRow × Except VoiceErr EntryRow :=
  let t := String.mk (pyStripL rawTranscript.toList)
  if t = "" then (entries, .error .transcript_required)
  else
    let extracted := voiceExtracted env t
    let entry_type :=
      if extracted.entry_type = "income" ∨ extracted.entry_type = "expense" then
        extracted.entry_type
      else "income"
    let amount := voiceAmount env t
    if amount ≤ 0 then (entries, .error .amount_not_found)
    else
      let note0 := if extracted.note ≠ "" then extracted.note else t
      let note :=
        if extracted.items.isEmpty then note0
        else t ++ " | Items: " ++ joinComma (extracted.items.map fmtVoiceItem)
      let row : EntryRow :=
        { entry_type := entry_type, amount := amount, note := note, source := "voice" }
      (entries ++ [row], .ok row)

instance : DecidableEq (Except VoiceErr EntryRow) := fun x y =>
  match x, y with
  | .error a, .error b =>
      if h : a = b then .isTrue (by rw [h]) else .isFalse (by simp [h])
  | .error _, .ok _ => .isFalse (by simp)
  | .ok _, .error _ => .isFalse (by simp)
  | .ok a, .ok b =>
      if h : a = b then .isTrue (by rw [h]) else .isFalse (by simp [h])

/-! ### Claims about the rule-based validator -/

/-- Claim C1. For every non-null input record, the record returned by
`validate_bill_data` has a confidence field and that confidence lies in
`[0, 1]` (the final clamp `max(0.0, min(1.0, confidence))`). -/
theorem validator_confidence_bounded (b : Bill) :
    ∃ b' c, validate_bill_data (some b) = some b' ∧
      b'.confidence = some c ∧ 0 ≤ c ∧ c ≤ 1 := by
  refine ⟨validateBill b, _, rfl, rfl, le_max_left _ _, ?_⟩
  exact max_le zero_le_one (min_le_left _ _)

/-- Agreement on every field except `confidence` — in particular on which
fields have been nulled. -/
def sameNulling (x y : Bill) : Prop :=
  x.vendor_name = y.vendor_name ∧ x.vendor_gstin = y.vendor_gstin ∧
  x.bill_number = y.bill_number ∧ x.bill_date = y.bill_date ∧
  x.items = y.items ∧ x.subtotal = y.subtotal ∧
  x.cgst_rate = y.cgst_rate ∧ x.cgst_amount = y.cgst_amount ∧
  x.sgst_rate = y.sgst_rate ∧ x.sgst_amount = y.sgst_amount ∧
  x.igst_rate = y.igst_rate ∧ x.igst_amount = y.igst_amount ∧
  x.total_amount = y.total_amount ∧ x.gst_amount = y.gst_amount ∧
  x.gst_percentage = y.gst_percentage ∧ x.detected_amount = y.detected_amount

/-- Claim C3 counterexample. The validator is not idempotent on confidence: on
the record `{total_amount: 5}` one application yields confidence 0.2
(base 0.5 − 0.2 low-total − 0.1 empty-items), and a second application
subtracts both penalties again, clamping at 0. -/
theorem validator_not_idempotent :
    (validateBill (validateBill { total_amount := some 5 })).confidence ≠
      (validateBill { total_amount := some 5 }).confidence := by decide

/-- Claim C3 amended. Re-validating the validator's output nulls no further
fields (rules 2 and 3 test exactly the fields they null, so they cannot
re-fire), but the confidence is not preserved in general: the penalties of
rules 1, 4 and 5 test fields the validator does not null and accrue again. -/
theorem validator_nulling_idempotent (b : Bill) :
    sameNulling (validateBill (validateBill b)) (validateBill b) := by
  refine ⟨rfl, rfl, rfl, rfl, rfl, rfl, rfl, rfl, rfl, rfl, rfl, rfl, rfl, ?_, ?_, rfl⟩
  · by_cases h : gstExceeds b.gst_amount b.total_amount
    · simp only [validateBill, h, if_true]
      cases b.total_amount <;> simp [gstExceeds]
    · simp [validateBill, h]
  · by_cases h : pctOutOfRange b.gst_percentage
    · simp only [validateBill, h, if_true]
      simp [pctOutOfRange]
    · simp [validateBill, h]

/-- Claim C5 counterexample. Validating `{total_amount: 100, gst_amount: 150}`
does null `gst_amount`, but its confidence is not 0.35: the empty-items rule
fires as well. -/
theorem gst_exceeds_total_confidence_not_035 :
    (validateBill { total_amount := some 100, gst_amount := some 150 }).gst_amount = none ∧
    (validateBill { total_amount := some 100, gst_amount := some 150 }).confidence ≠
      some (35 / 100) := by decide

/-- Claim C5 amended. Validating `{total_amount: 100, gst_amount: 150}` (no
other fields set) makes `gst_amount` absent and yields confidence 0.25: the
0.15 GST-exceeds-total penalty plus the 0.1 empty-items penalty below the
0.5 base. -/
theorem gst_exceeds_total_rule :
    (validateBill { total_amount := some 100, gst_amount := some 150 }).gst_amount = none ∧
    (validateBill { total_amount := some 100, gst_amount := some 150 }).confidence =
      some (25 / 100) := by decide

/-- Claim C7 counterexample. The validator's percentage rule does not touch the
per-component rate fields: `{cgst_rate: 50}` (50 is outside `[0, 28]`) is
returned with `cgst_rate` still set and with no 0.1 percentage penalty
(confidence 0.4 = 0.5 − 0.1 for empty items only, not 0.3). -/
theorem gst_rate_fields_not_nulled :
    (validateBill { cgst_rate := some 50 }).cgst_rate = some 50 ∧
    (validateBill { cgst_rate := some 50 }).confidence = some (4 / 10) := by decide

/-- Claim C7 amended. The out-of-`[0, 28]` percentage rule applies only to the
single `gst_percentage` key (which no extractor of the data model populates):
the validator never changes `cgst_rate`, `sgst_rate` or `igst_rate`, while a
present out-of-range `gst_percentage` is nulled; on `{gst_percentage: 50}`
alone the 0.1 penalty is visible (0.5 − 0.1 − 0.1 empty items = 0.3). -/
theorem gst_percentage_rule (b : Bill) :
    (validateBill b).cgst_rate = b.cgst_rate ∧
    (validateBill b).sgst_rate = b.sgst_rate ∧
    (validateBill b).igst_rate = b.igst_rate ∧
    (∀ p : ℚ, b.gst_percentage = some p → (p < 0 ∨ 28 < p) →
      (validateBill b).gst_percentage = none) ∧
    (validateBill { gst_percentage := some 50 }).gst_percentage = none ∧
    (validateBill { gst_percentage := some 50 }).confidence = some (3 / 10) := by
  refine ⟨rfl, rfl, rfl, ?_, by decide, by decide⟩
  intro p hp hout
  have : pctOutOfRange b.gst_percentage = true := by
    rw [hp]; simp [pctOutOfRange]
    rcases hout with h | h
    · exact Or.inl h
    · exact Or.inr h
  simp [validateBill, this]

/-- Claim C7 witness. -/
theorem gst_percentage_rule_witness :
    (validateBill { gst_percentage := some 50, cgst_rate := some 50 }).gst_percentage = none :=
  (gst_percentage_rule { gst_percentage := some 50, cgst_rate := some 50 }).2.2.2.1
    50 rfl (Or.inr (by norm_num))

/-! ### Claims about the orchestrator -/

/-- Claim C8. If, at the backfill step, the record's items are empty and its
total amount is present and truthy, the result carries exactly the single
inferred line item `description="Inferred item", quantity=1, rate=amount=total`. -/
theorem inferred_item_backfill (b : Bill) (t : ℚ)
    (hitems : b.items.getD [] = []) (htot : b.total_amount = some t) (ht : t ≠ 0) :
    (backfillItems b).items = some [⟨"Inferred item", none, 1, t, t⟩] := by
  simp [backfillItems, hitems, htot, pyOrQ, truthyQ, ht]

/-- Claim C8 witness. A validated record with `items=[]` and `total_amount=250`
gets exactly one synthesized item with `amount=250`. -/
theorem inferred_item_backfill_witness :
    (backfillItems { items := some [], total_amount := some 250 }).items =
      some [⟨"Inferred item", none, 1, 250, 250⟩] :=
  inferred_item_backfill { items := some [], total_amount := some 250 } 250
    rfl rfl (by norm_num)

/-- Claim C10. The `gst_amount` the upload pipeline writes to the bill row (and
returns in the response — both come from the same computation) is the sum of
the three component amounts with absent components counted as 0; when all
three are absent it is the number 0, while the structured record's component
fields themselves stay absent. -/
theorem gst_amount_component_sum (env : BillEnv) (ocr : String) :
    (uploadPipeline env ocr).billGst =
      (uploadPipeline env ocr).structured.cgst_amount.getD 0 +
      (uploadPipeline env ocr).structured.sgst_amount.getD 0 +
      (uploadPipeline env ocr).structured.igst_amount.getD 0 ∧
    (uploadPipeline env ocr).responseGst = (uploadPipeline env ocr).billGst ∧
    ((uploadPipeline env ocr).structured.cgst_amount = none →
      (uploadPipeline env ocr).structured.sgst_amount = none →
      (uploadPipeline env ocr).structured.igst_amount = none →
      (uploadPipeline env ocr).billGst = 0) := by
  have hpy : ∀ o : Option ℚ, pyOrZero o = o.getD 0 := by
    intro o
    cases o with
    | none => rfl
    | some x =>
        by_cases hx : x = 0
        · simp [pyOrZero, hx]
        · simp [pyOrZero, hx]
  have hg : ∀ bb : Bill, gstSum bb =
      bb.cgst_amount.getD 0 + bb.sgst_amount.getD 0 + bb.igst_amount.getD 0 := by
    intro bb; simp [gstSum, hpy]
  have hb : (uploadPipeline env ocr).billGst = gstSum (uploadPipeline env ocr).structured := rfl
  refine ⟨by rw [hb, hg], rfl, ?_⟩
  intro h1 h2 h3
  rw [hb, hg, h1, h2, h3]
  simp

/-- Claim C10 witness. A run in which no GST component was extracted persists
the number 0 as `gst_amount`. -/
theorem gst_amount_component_sum_witness :
    (uploadPipeline ⟨false, none, none⟩ "").billGst = 0 :=
  (gst_amount_component_sum ⟨false, none, none⟩ "").2.2 (by decide) (by decide) (by decide)

/-- Claim C9. For every non-empty voice transcript where neither the extraction
path (AI result or transcript fallback) nor the direct numeric rescue scan
yields a strictly positive amount, the request fails with the
`amount_not_found` error and the entries store is unchanged. -/
theorem voice_amount_not_found (env : VoiceEnv) (raw : String) (entries : List EntryRow)
    (hne : String.mk (pyStripL raw.toList) ≠ "")
    (hext : (voiceExtracted env (String.mk (pyStripL raw.toList))).amount ≤ 0)
    (hscan : (directScanAmount (String.mk (pyStripL raw.toList)).toList).getD 0 ≤ 0) :
    api_process_voice env raw entries = (entries, .error .amount_not_found) := by
  have hamt : voiceAmount env (String.mk (pyStripL raw.toList)) ≤ 0 := by
    unfold voiceAmount
    rw [if_pos hext]
    cases h : directScanAmount (String.mk (pyStripL raw.toList)).toList with
    | none => exact hext
    | some a => rw [h] at hscan; exact hscan
  unfold api_process_voice
  rw [if_neg hne, if_pos hamt]

/-- Claim C9 witness. The transcript "hello world" contains no number: the
fallback extractor reports amount 0, the rescue scan finds nothing, and the
request is rejected without touching the store. -/
theorem voice_amount_not_found_witness :
    api_process_voice ⟨false, none⟩ "hello world" [] = ([], .error .amount_not_found) :=
  voice_amount_not_found ⟨false, none⟩ "hello world" [] (by decide) (by decide) (by decide)

/-- Stage `VALIDATED` appears among the stages of `run_gemini_structured` exactly
when credentials are configured and the first AI call produced a mapping. -/
theorem validated_in_run_iff (env : BillEnv) (ocr : String) :
    Stage.VALIDATED ∈ (run_gemini_structured env ocr).2 ↔
      env.hasKey = true ∧ env.extractResult.isSome = true := by
  obtain ⟨hk, ex, vr⟩ := env
  cases hk <;> cases ex <;> cases vr <;> simp [run_gemini_structured]

/-- Claim C2 counterexample. A no-credentials upload reaches persistence
without ever passing `validate_bill_data`: its stage trace contains
`PERSISTED` but not `VALIDATED`. -/
theorem fallback_persists_unvalidated :
    Stage.VALIDATED ∉ (uploadPipeline ⟨false, none, none⟩ "").trace ∧
    Stage.PERSISTED ∈ (uploadPipeline ⟨false, none, none⟩ "").trace := by decide

/-- Claim C2 amended. Every upload trace ends with item backfill followed by
persistence, and `VALIDATED` occurs (always earlier) exactly on the
successful-AI path: with credentials and a parsed extraction.  The
no-credentials and AI-failure paths persist fallback-derived records that
never pass the validator. -/
theorem validated_only_on_ai_path (env : BillEnv) (ocr : String) :
    ∃ t1, (uploadPipeline env ocr).trace = t1 ++ [Stage.ITEM_BACKFILLED, Stage.PERSISTED] ∧
      (Stage.VALIDATED ∈ t1 ↔ env.hasKey = true ∧ env.extractResult.isSome = true) := by
  refine ⟨_, rfl, ?_⟩
  by_cases hnf : needFallback (run_gemini_structured env ocr).1 = true
  · rw [if_pos hnf]
    rw [List.mem_append]
    simp [validated_in_run_iff]
  · rw [if_neg hnf]
    exact validated_in_run_iff env ocr

/-! ### Claims about the fallback text-pattern extractor -/

instance : Std.Antisymm (fun x y : ℚ => x ≤ y) := ⟨@le_antisymm ℚ _⟩

/-- Claim C4. The fallback extractor's `total_amount` is the maximum of all
strictly positive, parseable matches collected across the ordered amount
patterns (`max(all_amounts)`), absent iff no such match exists; in
particular "Grand Total: 500 and 42" yields 500, the unrelated 42 never
being collected. -/
theorem fallback_total_is_max_amount :
    (∀ ocr : String,
      ((fallback_extract_from_ocr ocr).total_amount = none ↔
        collectAmounts ocr.toList = []) ∧
      (∀ v : ℚ, (fallback_extract_from_ocr ocr).total_amount = some v →
        v ∈ collectAmounts ocr.toList ∧ ∀ x ∈ collectAmounts ocr.toList, x ≤ v)) ∧
    (fallback_extract_from_ocr "Grand Total: 500 and 42").total_amount = some 500 := by
  have hproj : ∀ ocr : String,
      (fallback_extract_from_ocr ocr).total_amount = (collectAmounts ocr.toList).max? :=
    fun _ => rfl
  refine ⟨fun ocr => ⟨?_, ?_⟩, by decide⟩
  · rw [hproj]; exact List.max?_eq_none_iff
  · intro v hv
    rw [hproj] at hv
    exact (List.max?_eq_some_iff (fun _ => le_refl _) max_choice
      (fun _ _ _ => max_le_iff)).1 hv

/-- Claim C4 witness. Applying the maximum property at the concrete text. -/
theorem fallback_total_is_max_amount_witness :
    500 ∈ collectAmounts "Grand Total: 500 and 42".toList ∧
      ∀ x ∈ collectAmounts "Grand Total: 500 and 42".toList, x ≤ 500 :=
  (fallback_total_is_max_amount.1 "Grand Total: 500 and 42").2 500 (by decide)

/-! ### GSTIN format soundness

The reported `vendor_gstin` always fits the pattern's character-by-character
format.  `matchesPreds` is pointwise satisfaction of a class list. -/

def matchesPreds : List (Char → Bool) → List Char → Bool
  | [], [] => true
  | p :: ps, c :: cs => p c && matchesPreds ps cs
  | _, _ => false

theorem matchesPreds_length (ps : List (Char → Bool)) :
    ∀ l, matchesPreds ps l = true → l.length = ps.length := by
  induction ps with
  | nil => intro l h; cases l with
      | nil => rfl
      | cons c cs => simp [matchesPreds] at h
  | cons p ps ih => intro l h; cases l with
      | nil => simp [matchesPreds] at h
      | cons c cs =>
          simp only [matchesPreds, Bool.and_eq_true] at h
          simp [ih cs h.2]

theorem mem_mrun_seq {a b : RE} {prev : Option Char} {s : List Char} {out : ROut}
    (h : out ∈ mrun (RE.seq a b) prev s) :
    ∃ r ∈ mrun a prev s, ∃ r2 ∈ mrun b r.1 r.2.1,
      out = (r2.1, r2.2.1, r.2.2 <|> r2.2.2) := by
  simp only [mrun, List.mem_flatMap, List.mem_map] at h
  obtain ⟨r, hr, r2, hr2, heq⟩ := h
  exact ⟨r, hr, r2, hr2, heq.symm⟩

theorem mem_mrun_wordB {prev : Option Char} {s : List Char} {out : ROut}
    (h : out ∈ mrun RE.wordB prev s) : out = (prev, s, none) := by
  by_cases hb : atBoundary prev s = true <;> simp [mrun, hb] at h
  exact h

theorem mem_mrun_clsChain (ps : List (Char → Bool)) :
    ∀ (prev : Option Char) (s : List Char), ∀ out ∈ mrun (clsChain ps) prev s,
      out.2.1 = s.drop ps.length ∧ matchesPreds ps (s.take ps.length) = true ∧
      out.2.2 = (none : Option (List Char)) := by
  induction ps with
  | nil =>
      intro prev s out hout
      simp only [clsChain, List.map_nil, reSeqL, List.foldr_nil, mrun,
        List.mem_singleton] at hout
      subst hout
      exact ⟨rfl, rfl, rfl⟩
  | cons p ps ih =>
      intro prev s out hout
      cases s with
      | nil =>
          have hmr : mrun (clsChain (p :: ps)) prev [] = [] := by
            show mrun (RE.seq (RE.cls p) (clsChain ps)) prev [] = []
            simp [mrun]
          rw [hmr] at hout
          simp at hout
      | cons c cs =>
          by_cases hp : p c
          · have hmr : mrun (clsChain (p :: ps)) prev (c :: cs) =
                (mrun (clsChain ps) (some c) cs).map
                  (fun r2 => (r2.1, r2.2.1, (none : Option (List Char)) <|> r2.2.2)) := by
              show mrun (RE.seq (RE.cls p) (clsChain ps)) prev (c :: cs) = _
              simp [mrun, hp]
            rw [hmr] at hout
            simp only [List.mem_map] at hout
            obtain ⟨r2, hr2, heq⟩ := hout
            obtain ⟨h1, h2, h3⟩ := ih (some c) cs r2 hr2
            subst heq
            refine ⟨?_, ?_, ?_⟩
            · simpa using h1
            · simpa [matchesPreds, hp] using h2
            · simp [h3]
          · have hmr : mrun (clsChain (p :: ps)) prev (c :: cs) = [] := by
              show mrun (RE.seq (RE.cls p) (clsChain ps)) prev (c :: cs) = []
              simp [mrun, hp]
            rw [hmr] at hout
            simp at hout

theorem mem_mrun_group_clsChain (ps : List (Char → Bool)) (prev : Option Char)
    (s : List Char) (out : ROut) (hout : out ∈ mrun (RE.group (clsChain ps)) prev s) :
    out.2.2 = some (s.take ps.length) ∧ matchesPreds ps (s.take ps.length) = true := by
  simp only [mrun, List.mem_map] at hout
  obtain ⟨r, hr, heq⟩ := hout
  obtain ⟨h1, h2, _⟩ := mem_mrun_clsChain ps prev s r hr
  have hlen : ps.length ≤ s.length := by
    have := matchesPreds_length ps _ h2
    simp only [List.length_take] at this
    omega
  have hsub : s.length - r.2.1.length = ps.length := by
    rw [h1, List.length_drop]
    omega
  subst heq
  rw [hsub]
  exact ⟨rfl, h2⟩

theorem mem_mrun_gstin (prev : Option Char) (s : List Char) (out : ROut)
    (hout : out ∈ mrun gstinRE prev s) :
    ∃ g, out.2.2 = some g ∧ matchesPreds gstinPreds g = true := by
  have hre : gstinRE = RE.seq RE.wordB
      (RE.seq (RE.group (clsChain gstinPreds)) (RE.seq RE.wordB RE.eps)) := rfl
  rw [hre] at hout
  obtain ⟨r0, hr0, out1, hout1, heq⟩ := mem_mrun_seq hout
  have hr0' := mem_mrun_wordB hr0
  subst hr0'
  obtain ⟨r1, hr1, r2, hr2, heq1⟩ := mem_mrun_seq hout1
  obtain ⟨hcap, hmatch⟩ := mem_mrun_group_clsChain gstinPreds prev s r1 hr1
  refine ⟨s.take gstinPreds.length, ?_, hmatch⟩
  subst heq heq1
  simp [hcap]

theorem searchAux_gstin_sound :
    ∀ (s : List Char) (prev : Option Char) (g : List Char),
      searchAux gstinRE prev s = some g → matchesPreds gstinPreds g = true := by
  intro s
  induction s with
  | nil =>
      intro prev g hg
      unfold searchAux at hg
      cases hm : mrun gstinRE prev [] with
      | nil => rw [hm] at hg; simp at hg
      | cons out rest =>
          rw [hm] at hg
          obtain ⟨cap, hcap, hmat⟩ :=
            mem_mrun_gstin prev [] out (by rw [hm]; exact List.mem_cons_self _ _)
          simp only [Option.some.injEq] at hg
          rw [← hg, hcap]
          exact hmat
  | cons c cs ih =>
      intro prev g hg
      unfold searchAux at hg
      cases hm : mrun gstinRE prev (c :: cs) with
      | nil =>
          rw [hm] at hg
          exact ih (some c) g hg
      | cons out rest =>
          rw [hm] at hg
          obtain ⟨cap, hcap, hmat⟩ :=
            mem_mrun_gstin prev (c :: cs) out (by rw [hm]; exact List.mem_cons_self _ _)
          simp only [Option.some.injEq] at hg
          rw [← hg, hcap]
          exact hmat

/-- From the spec's words: "2 digits + 5 letters + 4 digits + 1 letter +
1 alphanumeric + 1 alphanumeric" (14 characters), on the uppercased text. -/
def specGstinPreds : List (Char → Bool) :=
  List.replicate 2 Char.isDigit ++ List.replicate 5 isUpperAZ ++
  List.replicate 4 Char.isDigit ++ [isUpperAZ] ++
  [fun c => isUpperAZ c || c.isDigit] ++ [fun c => isUpperAZ c || c.isDigit]

/-- Claim C6 counterexample. The spec's 14-character format is not the code's:
"12ABCDE1234FZZ" fits the spec's stated shape, yet the extractor reports no
GSTIN (the pattern requires a digit in position 14 and two more alphanumerics,
15 characters in all). -/
theorem spec_gstin_format_mismatch :
    matchesPreds specGstinPreds "12ABCDE1234FZZ".toList = true ∧
    (fallback_extract_from_ocr "12ABCDE1234FZZ").vendor_gstin = none := by decide

/-- Claim C6 amended. The GSTIN detection matches the fixed 15-character format
2 digits + 5 letters + 4 digits + 1 letter + 1 digit + 2 alphanumerics,
word-bounded, on the text normalized to uppercase: every reported
`vendor_gstin` fits that format character by character, and text containing
`27aaaaa0000a1z5` (any case) yields `vendor_gstin = "27AAAAA0000A1Z5"`. -/
theorem gstin_fixed_format :
    (∀ (ocr g : String),
      (fallback_extract_from_ocr ocr).vendor_gstin = some g →
        matchesPreds gstinPreds g.toList = true) ∧
    (fallback_extract_from_ocr "GSTIN 27aaaaa0000a1z5").vendor_gstin =
      some "27AAAAA0000A1Z5" := by
  refine ⟨?_, by decide⟩
  intro ocr g hg
  have hproj : (fallback_extract_from_ocr ocr).vendor_gstin =
      (reSearch gstinRE (ocr.toList.map Char.toUpper)).map String.mk := rfl
  rw [hproj] at hg
  cases hs : reSearch gstinRE (ocr.toList.map Char.toUpper) with
  | none => rw [hs] at hg; exact absurd hg (by simp)
  | some gl =>
      rw [hs] at hg
      simp only [Option.map_some', Option.some.injEq] at hg
      have hmat := searchAux_gstin_sound _ _ _ hs
      rw [← hg]
      exact hmat

/-- Claim C6 witness. The reported example GSTIN fits the 15-character format. -/
theorem gstin_fixed_format_witness :
    matchesPreds gstinPreds ("27AAAAA0000A1Z5" : String).toList = true :=
  gstin_fixed_format.1 "GSTIN 27aaaaa0000a1z5" "27AAAAA0000A1Z5" (by decide)
